import Mathlib

/-
Verification of the WeSellYourData event ledger.

The repository has three cooperating pieces, all modelled here:
  * `Server`  - src/website3/server.js, the Express backend: the POST
    /fingerprint-data ingestion handler, the /api/data view, the
    DELETE /api/data reset and the /api/stats aggregation.
  * `W3` - the dashboard script bundled in src/website3/server.js after the
    document separator (processData, parseTimestamp, session map,
    clearActivity).
  * `W2` - the dashboard script bundled in src/website2/README.md after the
    document separator (processEntry with duplicate suppression,
    clearActivity clearing both history and sessions).

JavaScript runtime values that can appear in the `timestamp` field of a
request body are modelled by `JSVal`; machine clock reads (`Date.now()`,
`new Date()`) are explicit `now : Int` parameters (epoch milliseconds), and
the ECMAScript date-string parser behind `new Date(string).getTime()` is an
explicit `pd : String -> Option Int` parameter (`none` models an Invalid
Date, i.e. a NaN time value).
-/

/-- A JavaScript value sent in the `timestamp` field of a request body.
`num` carries the integral numbers the claims are about, `nan` is the NaN
number value, `obj` stands for any object value (whose ToPrimitive
coercion yields a non-numeric string). -/
inductive JSVal where
  | num (n : Int)
  | nan
  | str (s : String)
  | bool (b : Bool)
  | obj
deriving DecidableEq

/-- JavaScript truthiness of a possibly-absent value: `undefined`, `0`,
`NaN`, the empty string and `false` are falsy; objects are always truthy. -/
def truthyVal : Option JSVal → Bool
  | none => false
  | some (.num n) => n != 0
  | some .nan => false
  | some (.str s) => s != ""
  | some (.bool b) => b
  | some .obj => true

/-- Truthiness of a possibly-absent string field (`!data.name`,
`!data.action`): absent or empty is falsy. -/
def truthyOptStr : Option String → Bool
  | none => false
  | some s => s != ""

/-- A request body as read by the handlers: `data.name`, `data.action`,
`data.timestamp` and `data.time` (the last one only read by the website3
dashboard's `data.timestamp || data.time`). `none` models an absent field.
The claims only exercise string-valued `name`/`action`, so those fields are
typed as optional strings. -/
structure RawData where
  name : Option String := none
  action : Option String := none
  timestamp : Option JSVal := none
  time : Option JSVal := none
deriving DecidableEq

/-- The `||` of two possibly-absent JavaScript values: the first if truthy,
otherwise the second. -/
def jsOr (a b : Option JSVal) : Option JSVal := if truthyVal a then a else b

/-- JavaScript String.prototype.toLowerCase, modelled for ASCII strings
(the only action literals in play). -/
def jsToLower (s : String) : String :=
  String.mk (s.data.map (fun c =>
    if c.isUpper then Char.ofNat (c.toNat + 32) else c))

/-- Trim a list to at most `cap` elements, exactly as the source's
`if (xs.length > CAP) xs = xs.slice(0, CAP)`. -/
def trimTo (cap : Nat) (l : List α) : List α :=
  if l.length > cap then l.take cap else l

/-- JavaScript `Map.prototype.set`: update the value in place when the key
is present (insertion order kept), otherwise append the new pair. -/
def mapSet (m : List (String × α)) (k : String) (v : α) : List (String × α) :=
  if m.any (fun p => p.1 == k) then
    m.map (fun p => if p.1 == k then (k, v) else p)
  else m ++ [(k, v)]

/-- JavaScript `Map.prototype.delete`: drop every pair with the key. -/
def mapDelete (m : List (String × α)) (k : String) : List (String × α) :=
  m.filter (fun p => p.1 != k)

/-- JavaScript `Map.prototype.get`. -/
def mapGet (m : List (String × α)) (k : String) : Option α :=
  (m.find? (fun p => p.1 == k)).map Prod.snd

/-- Keys of a modelled JavaScript map. -/
def mapKeys (m : List (String × α)) : List String := m.map Prod.fst

/-- Truth of an `Except` being the success case. -/
def exceptIsOk : Except ε α → Bool
  | .ok _ => true
  | .error _ => false

namespace Server

/-- One stored entry of the server's in-memory store `latestData`
(server.js, POST /fingerprint-data): the raw name and action strings, the
normalized timestamp (still a JavaScript value: the normalizer leaves
non-number non-string inputs untouched), and the server arrival time. -/
structure Entry where
  name : String
  action : String
  timestamp : JSVal
  receivedAt : Int
deriving DecidableEq

/-- server.js line 22: `const MAX_HISTORY = 100`. -/
def MAX_HISTORY : Nat := 100

/-- server.js lines 50-58: a number below 10000000000 is taken as epoch
seconds and multiplied by 1000 (NaN fails the `<` comparison and is left
alone), a string is parsed with `new Date(s).getTime()` (NaN on failure),
and every other value passes through unchanged. -/
def normalizeTimestamp (pd : String → Option Int) (t : JSVal) : JSVal :=
  match t with
  | .num n => if n < 10000000000 then .num (n * 1000) else .num n
  | .nan => .nan
  | .str s =>
    match pd s with
    | some ms => .num ms
    | none => .nan
  | t => t

/-- server.js line 44: `['in', 'out'].includes(data.action)`. -/
def actionOk (a : Option String) : Bool := a == some "in" || a == some "out"

/-- The validation of POST /fingerprint-data in one predicate: truthy name,
truthy action, truthy timestamp, recognized action literal. -/
def validData (d : RawData) : Bool :=
  truthyOptStr d.name && truthyOptStr d.action && truthyVal d.timestamp &&
    actionOk d.action

/-- server.js lines 61-66: the standardized entry built from a validated
request at server time `now`. -/
def mkEntry (pd : String → Option Int) (now : Int) (d : RawData) : Entry :=
  { name := d.name.getD ""
    action := d.action.getD ""
    timestamp := normalizeTimestamp pd (d.timestamp.getD .nan)
    receivedAt := now }

/-- server.js lines 72-74: trim `latestData` to the last MAX_HISTORY
entries after the unshift. -/
def trimHist (l : List Entry) : List Entry := trimTo MAX_HISTORY l

/-- server.js lines 33-91, POST /fingerprint-data: validate, normalize the
timestamp, unshift the standardized entry, trim, and answer with the stored
entry; a validation failure answers 400 with an error message and performs
no mutation. The result carries the new store contents and the entry on
success. -/
def fingerprintPost (pd : String → Option Int) (now : Int) (d : RawData)
    (st : List Entry) : Except String (List Entry × Entry) :=
  if truthyOptStr d.name && truthyOptStr d.action && truthyVal d.timestamp then
    if actionOk d.action then
      let entry := mkEntry pd now d
      .ok (trimHist (entry :: st), entry)
    else
      .error "Invalid action. Must be \"in\" or \"out\""
  else
    .error "Invalid data format. Required: name, action, timestamp"

/-- The store contents after a POST /fingerprint-data request: unchanged
when the handler rejected the request. -/
def ledgerAfterPost (pd : String → Option Int) (now : Int) (d : RawData)
    (st : List Entry) : List Entry :=
  match fingerprintPost pd now d st with
  | .ok (st2, _) => st2
  | .error _ => st

/-- GET /api/data: the full retained history, newest first. -/
def listRecent (st : List Entry) : List Entry := st

/-- DELETE /api/data (server.js lines 136-152): remember the previous
count, reset the store to empty, and report the count. -/
def apiDataDelete (st : List Entry) : List Entry × Nat :=
  (([] : List Entry), (listRecent st).length)

/-- ECMAScript ToNumber on stored timestamp values, used by the `>=`
comparisons in /api/stats; `none` is NaN. An object coerces through the
string "[object Object]" to NaN. Stored timestamps are never of the string
case (see `normalizeTimestamp`); for totality strings are modelled as
integer literals with surrounding blanks. -/
def toNum : JSVal → Option Int
  | .num n => some n
  | .nan => none
  | .str s => if s.trim = "" then some 0 else s.trim.toInt?
  | .bool b => some (if b then 1 else 0)
  | .obj => none

/-- JavaScript `entry.timestamp >= bound`: false whenever the timestamp
coerces to NaN. -/
def tsGE (v : JSVal) (bound : Int) : Bool :=
  match toNum v with
  | some n => bound ≤ n
  | none => false

/-- The payload of GET /api/stats. -/
structure Stats where
  totalEntries : Nat
  signInsToday : Nat
  signOutsToday : Nat
  entriesLast24h : Nat
deriving DecidableEq

/-- server.js lines 158-185, GET /api/stats. `todayStart` stands for
`new Date(now.getFullYear(), now.getMonth(), now.getDate()).getTime()`,
the local-midnight instant of the `now` clock read (the local-calendar
computation itself is outside the model); `now` is the `Date.now()` read
used by the 24-hour filter. Both day filters only compare with `>=`. -/
def getStats (todayStart now : Int) (hist : List Entry) : Stats :=
  let todayEntries := hist.filter (fun e => tsGE e.timestamp todayStart)
  { totalEntries := hist.length
    signInsToday := (todayEntries.filter (fun e => e.action == "in")).length
    signOutsToday := (todayEntries.filter (fun e => e.action == "out")).length
    entriesLast24h :=
      (hist.filter (fun e => tsGE e.timestamp (now - 24 * 60 * 60 * 1000))).length }

/-- Modelled from the spec's words, for comparison only (claim C6):
membership of an instant in the asOf local calendar day, bounded on both
sides, with the day taken as 86400000 ms from its start. -/
def specWithinDay (dayStart t : Int) : Bool :=
  dayStart ≤ t && t < dayStart + 86400000

/-- Modelled from the spec's words, for comparison only (claim C6): the
count of retained events whose occurredAt lies within the asOf day, bounded
on both sides, with action "in". -/
def claimSignInsToday (dayStart : Int) (hist : List Entry) : Nat :=
  (hist.filter (fun e =>
    (match toNum e.timestamp with
     | some t => specWithinDay dayStart t
     | none => false) && e.action == "in")).length

/-- A sequence of POST /fingerprint-data requests applied to the store in
arrival order. -/
def ingestAll (pd : String → Option Int) (now : Int) (ds : List RawData)
    (st : List Entry) : List Entry :=
  ds.foldl (fun s d => ledgerAfterPost pd now d s) st

end Server

namespace W3

/-- The website3 dashboard's parseTimestamp (server.js second document,
lines 528-544): falsy input is the current instant; a number strictly
between 1e9 and 1e10 is seconds; a number above 1e12 is milliseconds; any
other number feeds `new Date(number)` and keeps its value; a string parses
or falls back to now; `new Date(true)` is the instant 1; an object makes an
Invalid Date and falls back to now. The result is always a valid instant. -/
def parseTimestamp (pd : String → Option Int) (now : Int)
    (t : Option JSVal) : Int :=
  if truthyVal t then
    match t with
    | some (.num n) =>
      if 1000000000 < n && n < 10000000000 then n * 1000
      else if 1000000000000 < n then n
      else n
    | some (.str s) => (pd s).getD now
    | some (.bool _) => 1
    | some .obj => now
    | some .nan => now
    | none => now
  else now

/-- One entry of the website3 dashboard's activity feed. -/
structure Entry where
  name : String
  action : String
  timestamp : Int
deriving DecidableEq

/-- The website3 dashboard's STATE: the active-session map (name to session
start time), the three counters, and the activity history capped at 50. -/
structure State where
  activeSessions : List (String × Int) := []
  totalEntries : Nat := 0
  signInsToday : Nat := 0
  signOutsToday : Nat := 0
  activityHistory : List Entry := []
deriving DecidableEq

/-- The standardized entry processData builds: lower-cased action and the
parsed `data.timestamp || data.time`. -/
def mkEntry (pd : String → Option Int) (now : Int) (d : RawData) : Entry :=
  { name := d.name.getD ""
    action := jsToLower (d.action.getD "")
    timestamp := parseTimestamp pd now (jsOr d.timestamp d.time) }

/-- The website3 dashboard's processData (server.js second document, lines
498-526): reject falsy name or action without touching the state; otherwise
bump totalEntries, on "in" bump signInsToday and upsert the session, on
"out" bump signOutsToday and delete the session, then unshift into the
activity history and trim it to 50. -/
def processData (pd : String → Option Int) (now : Int) (d : Option RawData)
    (st : State) : State :=
  match d with
  | none => st
  | some data =>
    if truthyOptStr data.name && truthyOptStr data.action then
      let entry := mkEntry pd now data
      let st1 := { st with totalEntries := st.totalEntries + 1 }
      let st2 :=
        if entry.action == "in" then
          { st1 with
            signInsToday := st1.signInsToday + 1
            activeSessions := mapSet st1.activeSessions entry.name entry.timestamp }
        else if entry.action == "out" then
          { st1 with
            signOutsToday := st1.signOutsToday + 1
            activeSessions := mapDelete st1.activeSessions entry.name }
        else st1
      { st2 with activityHistory := trimTo 50 (entry :: st2.activityHistory) }
    else st

/-- The website3 dashboard's clearActivity (lines 572-576): empty the
activity history; the active-session map and the counters are untouched. -/
def clearActivity (st : State) : State := { st with activityHistory := [] }

end W3

namespace W2

/-- One entry of the website2 dashboard's activity feed. The timestamp is a
Date: `none` is an Invalid Date (NaN time value). -/
structure Entry where
  name : String
  action : String
  timestamp : Option Int
  id : String
deriving DecidableEq

/-- The website2 dashboard's STATE: active sessions (name to start time)
and the activity history capped at 50. -/
structure State where
  activeSessions : List (String × Option Int) := []
  activityHistory : List Entry := []
deriving DecidableEq

/-- The website2 dashboard's timestamp conversion (processEntry, README
second document lines 607-614): a number or a string goes through
`new Date(value)` (NaN yields an Invalid Date, an unparseable string
yields an Invalid Date), anything else is the current instant. -/
def convertTs (pd : String → Option Int) (now : Int) :
    Option JSVal → Option Int
  | some (.num n) => some n
  | some .nan => none
  | some (.str s) => pd s
  | _ => some now

/-- The `${timestamp.getTime()}` component of the entry id: "NaN" for an
Invalid Date. -/
def tsIdPart : Option Int → String
  | some n => toString n
  | none => "NaN"

/-- The duplicate test of processEntry: `Math.abs(a - b) < 1000`, false
whenever either Date is Invalid (NaN compares false). -/
def isDupTs : Option Int → Option Int → Bool
  | some a, some b => (a - b).natAbs < 1000
  | _, _ => false

/-- The standardized entry processEntry builds. -/
def mkEntry (pd : String → Option Int) (now : Int) (d : RawData) : Entry :=
  { name := d.name.getD ""
    action := d.action.getD ""
    timestamp := convertTs pd now d.timestamp
    id := d.name.getD "" ++ "-" ++ d.action.getD "" ++ "-" ++
      tsIdPart (convertTs pd now d.timestamp) }

/-- Whether a retained entry `e` makes the candidate `c` a duplicate: same
name, same action, timestamps within 1000 ms. -/
def dupOf (c e : Entry) : Bool :=
  e.name == c.name && e.action == c.action && isDupTs e.timestamp c.timestamp

/-- The website2 dashboard's processEntry (README second document, lines
599-652): reject falsy name or action; convert the timestamp; skip the
whole entry when the history holds a same-name same-action entry within
1000 ms; otherwise upsert or delete the session on "in"/"out", unshift the
entry and trim the history to 50. -/
def processEntry (pd : String → Option Int) (now : Int) (d : RawData)
    (st : State) : State :=
  if truthyOptStr d.name && truthyOptStr d.action then
    let entry := mkEntry pd now d
    if st.activityHistory.any (dupOf entry) then st
    else
      let sessions :=
        if entry.action == "in" then
          mapSet st.activeSessions entry.name entry.timestamp
        else if entry.action == "out" then
          mapDelete st.activeSessions entry.name
        else st.activeSessions
      { activeSessions := sessions
        activityHistory := trimTo 50 (entry :: st.activityHistory) }
  else st

/-- The website2 dashboard's clearActivity (README second document, lines
750-760): empty the activity history and clear the active-session map. -/
def clearActivity (_st : State) : State :=
  { activeSessions := [], activityHistory := [] }

/-- processDataBatch: process a fetched batch in order. -/
def processEntries (pd : String → Option Int) (now : Int) (ds : List RawData)
    (st : State) : State :=
  ds.foldl (fun s d => processEntry pd now d s) st

end W2

/-- A date parser that fails on every string, usable wherever a concrete
`pd` is needed. -/
def pdNone : String → Option Int := fun _ => none

/-- A stored server entry that duplicates `dupD` exactly (same name, same
action, identical millisecond timestamp). -/
def dupE : Server.Entry :=
  { name := "Alice", action := "in", timestamp := .num 20000000000000,
    receivedAt := 0 }

/-- A valid request equal in name, action and (already-milliseconds)
timestamp to the retained entry `dupE`. -/
def dupD : RawData :=
  { name := some "Alice", action := some "in",
    timestamp := some (.num 20000000000000) }

/-- A website2 display state already holding an Alice sign-in at instant
1000. -/
def stW2dup : W2.State :=
  { activeSessions := [("Alice", some 1000)]
    activityHistory :=
      [⟨"Alice", "in", some 1000, "Alice-in-1000"⟩] }

/-- An Alice sign-in 500 ms away from the entry retained in `stW2dup`,
hence a duplicate for the website2 dedup window. -/
def dW2dup : RawData :=
  { name := some "Alice", action := some "in", timestamp := some (.num 1500) }

/-- 101 valid sign-in records whose timestamps are 2000 ms apart, so no two
fall within the 1000 ms duplicate window. -/
def manyRecords : List RawData :=
  (List.range 101).map (fun i =>
    { name := some "u", action := some "in",
      timestamp := some (.num (2000 * (i : Int) + 1)) })

/-- An "in" event one second before the day boundary `d2` (23:59:59 of the
previous local day). -/
def earlyE (d2 : Int) : Server.Entry :=
  { name := "A", action := "in", timestamp := .num (d2 - 1000), receivedAt := 0 }

/-- An "in" event one second after the day boundary `d2` (00:00:01 of the
new local day). -/
def lateE (d2 : Int) : Server.Entry :=
  { name := "B", action := "in", timestamp := .num (d2 + 1000), receivedAt := 0 }

/-- An "in" event dated ten days after the modelled asOf day start
1700000000000. -/
def futureE : Server.Entry :=
  { name := "A", action := "in", timestamp := .num 1700864000000,
    receivedAt := 0 }

/-- An Alice sign-in record at a milliseconds-scale instant. -/
def aliceIn : RawData :=
  { name := some "Alice", action := some "in",
    timestamp := some (.num 1710000000123) }

/-- An Alice sign-out record shortly after `aliceIn`. -/
def aliceOut : RawData :=
  { name := some "Alice", action := some "out",
    timestamp := some (.num 1710000000999) }

/-- The website3 display state after processing only `aliceIn`. -/
def stAfterAliceIn : W3.State := W3.processData pdNone 0 (some aliceIn) {}

/-! ## Helper lemmas -/

theorem trimTo_eq_take (cap : Nat) (l : List α) : trimTo cap l = l.take cap := by
  unfold trimTo
  split
  · rfl
  · next h => exact (List.take_of_length_le (by omega)).symm

theorem take_append_take (A B : List α) (n : Nat) :
    (A ++ B.take n).take n = (A ++ B).take n := by
  rw [List.take_append_eq_append_take, List.take_append_eq_append_take, List.take_take,
    Nat.min_eq_left (Nat.sub_le n A.length)]

theorem fingerprintPost_valid (pd : String → Option Int) (now : Int) (d : RawData)
    (st : List Server.Entry) (h : Server.validData d = true) :
    Server.fingerprintPost pd now d st
      = .ok (Server.trimHist (Server.mkEntry pd now d :: st), Server.mkEntry pd now d) := by
  unfold Server.validData at h
  simp only [Bool.and_eq_true] at h
  obtain ⟨⟨⟨h1, h2⟩, h3⟩, h4⟩ := h
  unfold Server.fingerprintPost
  simp [h1, h2, h3, h4]

theorem ledgerAfterPost_valid (pd : String → Option Int) (now : Int) (d : RawData)
    (st : List Server.Entry) (h : Server.validData d = true) :
    Server.ledgerAfterPost pd now d st
      = (Server.mkEntry pd now d :: st).take Server.MAX_HISTORY := by
  unfold Server.ledgerAfterPost
  rw [fingerprintPost_valid pd now d st h]
  simp [Server.trimHist, trimTo_eq_take]

theorem ingestAll_eq (pd : String → Option Int) (now : Int) (ds : List RawData)
    (st : List Server.Entry) (hv : ∀ d ∈ ds, Server.validData d = true)
    (hst : st.length ≤ Server.MAX_HISTORY) :
    Server.ingestAll pd now ds st
      = ((ds.map (Server.mkEntry pd now)).reverse ++ st).take Server.MAX_HISTORY := by
  induction ds generalizing st with
  | nil =>
    simp only [Server.ingestAll, List.foldl_nil, List.map_nil, List.reverse_nil,
      List.nil_append]
    exact (List.take_of_length_le hst).symm
  | cons d ds ih =>
    have hstep : Server.ledgerAfterPost pd now d st
        = (Server.mkEntry pd now d :: st).take Server.MAX_HISTORY :=
      ledgerAfterPost_valid pd now d st (hv d (by simp))
    have hlen2 : ((Server.mkEntry pd now d :: st).take Server.MAX_HISTORY).length
        ≤ Server.MAX_HISTORY := by
      simp [List.length_take]
    calc Server.ingestAll pd now (d :: ds) st
        = Server.ingestAll pd now ds
            ((Server.mkEntry pd now d :: st).take Server.MAX_HISTORY) := by
          simp [Server.ingestAll, hstep]
      _ = ((ds.map (Server.mkEntry pd now)).reverse
            ++ (Server.mkEntry pd now d :: st).take Server.MAX_HISTORY).take
              Server.MAX_HISTORY :=
          ih _ (fun x hx => hv x (by simp [hx])) hlen2
      _ = ((ds.map (Server.mkEntry pd now)).reverse
            ++ (Server.mkEntry pd now d :: st)).take Server.MAX_HISTORY :=
          take_append_take ..
      _ = (((d :: ds).map (Server.mkEntry pd now)).reverse ++ st).take
            Server.MAX_HISTORY := by
          simp [List.append_assoc]

theorem processEntry_nodup (pd : String → Option Int) (now : Int) (d : RawData)
    (st : W2.State) (hv : (truthyOptStr d.name && truthyOptStr d.action) = true)
    (hnd : st.activityHistory.any (W2.dupOf (W2.mkEntry pd now d)) = false) :
    (W2.processEntry pd now d st).activityHistory
      = (W2.mkEntry pd now d :: st.activityHistory).take 50 := by
  unfold W2.processEntry
  simp [hv, hnd, trimTo_eq_take]

theorem processEntries_hist (pd : String → Option Int) (now : Int)
    (ds : List RawData) (st : W2.State)
    (hv : ∀ d ∈ ds, (truthyOptStr d.name && truthyOptStr d.action) = true)
    (hnc : ∀ e ∈ st.activityHistory, ∀ d ∈ ds,
      W2.dupOf (W2.mkEntry pd now d) e = false)
    (hp : ds.Pairwise (fun d1 d2 =>
      W2.dupOf (W2.mkEntry pd now d2) (W2.mkEntry pd now d1) = false))
    (hlen : st.activityHistory.length ≤ 50) :
    (W2.processEntries pd now ds st).activityHistory
      = ((ds.map (W2.mkEntry pd now)).reverse ++ st.activityHistory).take 50 := by
  induction ds generalizing st with
  | nil =>
    simp only [W2.processEntries, List.foldl_nil, List.map_nil, List.reverse_nil,
      List.nil_append]
    exact (List.take_of_length_le hlen).symm
  | cons d ds ih =>
    rw [List.pairwise_cons] at hp
    have hvd := hv d (by simp)
    have hnd : st.activityHistory.any (W2.dupOf (W2.mkEntry pd now d)) = false := by
      rw [List.any_eq_false]
      intro e he
      simp [hnc e he d (by simp)]
    have h1 : (W2.processEntry pd now d st).activityHistory
        = (W2.mkEntry pd now d :: st.activityHistory).take 50 :=
      processEntry_nodup pd now d st hvd hnd
    have hlen1 : (W2.processEntry pd now d st).activityHistory.length ≤ 50 := by
      rw [h1]; simp [List.length_take]
    have hnc1 : ∀ e ∈ (W2.processEntry pd now d st).activityHistory, ∀ d2 ∈ ds,
        W2.dupOf (W2.mkEntry pd now d2) e = false := by
      intro e he d2 hd2
      rw [h1] at he
      have hmem := List.take_subset _ _ he
      rcases List.mem_cons.mp hmem with he2 | he2
      · rw [he2]
        exact hp.1 d2 hd2
      · exact hnc e he2 d2 (by simp [hd2])
    have hfold : W2.processEntries pd now (d :: ds) st
        = W2.processEntries pd now ds (W2.processEntry pd now d st) := rfl
    rw [hfold, ih _ (fun x hx => hv x (by simp [hx])) hnc1 hp.2 hlen1, h1,
      take_append_take]
    simp [List.append_assoc]

theorem find_map_replace (m : List (String × α)) (k : String) (v : α)
    (h : m.any (fun p => p.1 == k) = true) :
    (m.map (fun p => if p.1 == k then (k, v) else p)).find?
      (fun p => p.1 == k) = some (k, v) := by
  induction m with
  | nil => simp at h
  | cons p m ih =>
    by_cases hk : p.1 = k
    · simp [List.find?, hk]
    · have hb : (p.1 == k) = false := by simp [hk]
      have hm : m.any (fun p => p.1 == k) = true := by
        simpa [List.any_cons, hb] using h
      simpa [List.find?, hb] using ih hm

theorem mapGet_mapSet_self (m : List (String × α)) (k : String) (v : α) :
    mapGet (mapSet m k v) k = some v := by
  unfold mapSet mapGet
  split
  · next h => rw [find_map_replace m k v h]; rfl
  · next h =>
    rw [List.find?_append]
    have hnone : m.find? (fun p => p.1 == k) = none := by
      rw [List.find?_eq_none]
      intro p hp hpk
      rw [Bool.not_eq_true, List.any_eq_false] at h
      exact h p hp hpk
    simp [hnone, List.find?]

theorem mapGet_mapDelete_self (m : List (String × α)) (k : String) :
    mapGet (mapDelete m k) k = none := by
  unfold mapDelete mapGet
  have hnone : (m.filter (fun p => p.1 != k)).find? (fun p => p.1 == k) = none := by
    rw [List.find?_eq_none]
    intro p hp hpk
    have := List.of_mem_filter hp
    simp at this hpk
    exact this hpk
  simp [hnone]

theorem mapKeys_mapSet_of_mem (m : List (String × α)) (k : String) (v : α)
    (h : m.any (fun p => p.1 == k) = true) :
    mapKeys (mapSet m k v) = mapKeys m := by
  unfold mapSet mapKeys
  rw [if_pos h, List.map_map]
  apply List.map_congr_left
  intro p _
  by_cases hk : p.1 = k <;> simp [hk]

theorem nodup_mapSet (m : List (String × α)) (k : String) (v : α)
    (h : (mapKeys m).Nodup) : (mapKeys (mapSet m k v)).Nodup := by
  by_cases hc : m.any (fun p => p.1 == k) = true
  · rw [mapKeys_mapSet_of_mem m k v hc]
    exact h
  · unfold mapSet
    rw [if_neg hc]
    unfold mapKeys
    rw [List.map_append, List.nodup_append]
    refine ⟨h, by simp, ?_⟩
    intro x hx hxk
    simp at hxk
    subst hxk
    rw [Bool.not_eq_true, List.any_eq_false] at hc
    obtain ⟨p, hp, hpk⟩ := List.mem_map.mp hx
    exact hc p hp (by simp [hpk])

theorem nodup_mapDelete (m : List (String × α)) (k : String)
    (h : (mapKeys m).Nodup) : (mapKeys (mapDelete m k)).Nodup := by
  unfold mapDelete mapKeys
  exact h.sublist ((List.filter_sublist m).map Prod.fst)

/-! ## Claim theorems -/

/-- C5: ingestion fails with a validation error whenever the name is
missing or empty, the action is missing or empty, or the action is not one
of the two recognized literals "in" and "out"; in particular an empty name
with action "in", and name "Bob" with the unrecognized action "left", are
both rejected. -/
theorem validation_rejection (pd : String → Option Int) (now : Int)
    (d : RawData) (st : List Server.Entry)
    (h : truthyOptStr d.name = false ∨ truthyOptStr d.action = false ∨
      Server.actionOk d.action = false) :
    exceptIsOk (Server.fingerprintPost pd now d st) = false := by
  unfold Server.fingerprintPost
  by_cases hc : (truthyOptStr d.name && truthyOptStr d.action &&
      truthyVal d.timestamp) = true
  · rw [if_pos hc]
    have ha : Server.actionOk d.action = false := by
      rcases h with h | h | h
      · exfalso; simp [h] at hc
      · exfalso; simp [h] at hc
      · exact h
    rw [if_neg (by simp [ha])]
    rfl
  · rw [if_neg hc]
    rfl

/-- Witness for C5 at the two inputs the claim names. -/
theorem validation_rejection_witness :
    exceptIsOk (Server.fingerprintPost pdNone 0
      { name := some "", action := some "in", timestamp := some (.num 123) }
      []) = false ∧
    exceptIsOk (Server.fingerprintPost pdNone 0
      { name := some "Bob", action := some "left", timestamp := some (.num 123) }
      []) = false :=
  ⟨validation_rejection pdNone 0 _ [] (Or.inl (by decide)),
   validation_rejection pdNone 0 _ [] (Or.inr (Or.inr (by decide)))⟩

/-- C3: an integer timestamp accepted by ingestion is multiplied by 1000
(treated as epoch seconds) exactly when it is numerically below
10000000000, and stored unchanged (treated as epoch milliseconds)
otherwise. -/
theorem timestamp_unit_disambiguation (pd : String → Option Int) (now : Int)
    (name action : String) (n : Int) (st : List Server.Entry)
    (hname : name ≠ "") (hact : action = "in" ∨ action = "out")
    (hn : n ≠ 0) :
    Server.fingerprintPost pd now
      { name := some name, action := some action, timestamp := some (.num n) }
      st
      = .ok
        (Server.trimHist
          ({ name := name, action := action,
             timestamp := .num (if n < 10000000000 then n * 1000 else n),
             receivedAt := now } :: st),
         { name := name, action := action,
           timestamp := .num (if n < 10000000000 then n * 1000 else n),
           receivedAt := now }) := by
  have hv : Server.validData
      { name := some name, action := some action,
        timestamp := some (.num n) } = true := by
    unfold Server.validData Server.actionOk
    simp [truthyOptStr, truthyVal, hname, hn]
    rcases hact with h | h <;> simp [h]
  rw [fingerprintPost_valid _ _ _ _ hv]
  have hnorm : Server.normalizeTimestamp pd (.num n)
      = .num (if n < 10000000000 then n * 1000 else n) := by
    by_cases h : n < 10000000000
    · simp [Server.normalizeTimestamp, h]
    · simp [Server.normalizeTimestamp, h]
  simp [Server.mkEntry, hnorm]

/-- Witness for C3 at the two inputs the claim names: 1710000000 normalizes
to 1710000000000 ms and 1710000000123 is stored unchanged. -/
theorem timestamp_unit_disambiguation_witness :
    Server.fingerprintPost pdNone 7
      { name := some "Alice", action := some "in",
        timestamp := some (.num 1710000000) } []
      = .ok ([{ name := "Alice", action := "in",
                timestamp := .num 1710000000000, receivedAt := 7 }],
             { name := "Alice", action := "in",
               timestamp := .num 1710000000000, receivedAt := 7 }) ∧
    Server.fingerprintPost pdNone 7
      { name := some "Alice", action := some "in",
        timestamp := some (.num 1710000000123) } []
      = .ok ([{ name := "Alice", action := "in",
                timestamp := .num 1710000000123, receivedAt := 7 }],
             { name := "Alice", action := "in",
               timestamp := .num 1710000000123, receivedAt := 7 }) := by
  constructor
  · rw [timestamp_unit_disambiguation pdNone 7 "Alice" "in" 1710000000 []
      (by decide) (Or.inl rfl) (by decide)]
    rfl
  · rw [timestamp_unit_disambiguation pdNone 7 "Alice" "in" 1710000000123 []
      (by decide) (Or.inl rfl) (by decide)]
    rfl

/-- C9: a rejected ingestion mutates nothing: the server store is unchanged
whenever POST /fingerprint-data answers an error, and on a record with a
falsy name or action both dashboard processors leave their whole state
(history, counters and session map) unchanged. -/
theorem no_mutation_on_validation_failure (pd : String → Option Int)
    (now : Int) (d : RawData) (st : List Server.Entry) (st3 : W3.State)
    (st2 : W2.State) :
    (exceptIsOk (Server.fingerprintPost pd now d st) = false →
      Server.ledgerAfterPost pd now d st = st) ∧
    ((truthyOptStr d.name && truthyOptStr d.action) = false →
      W3.processData pd now (some d) st3 = st3 ∧
      W2.processEntry pd now d st2 = st2) := by
  constructor
  · intro h
    unfold Server.ledgerAfterPost
    cases hres : Server.fingerprintPost pd now d st with
    | ok v => rw [hres] at h; simp [exceptIsOk] at h
    | error e => rfl
  · intro h2
    constructor
    · unfold W3.processData
      simp [h2]
    · unfold W2.processEntry
      simp [h2]

/-- Witness for C9: an empty-name record against non-empty states at every
layer. -/
theorem no_mutation_on_validation_failure_witness :
    Server.ledgerAfterPost pdNone 4
      { name := some "", action := some "in", timestamp := some (.num 5) }
      [dupE] = [dupE] ∧
    W3.processData pdNone 4
      (some { name := some "", action := some "in",
              timestamp := some (.num 5) }) stAfterAliceIn = stAfterAliceIn ∧
    W2.processEntry pdNone 4
      { name := some "", action := some "in", timestamp := some (.num 5) }
      stW2dup = stW2dup := by
  have h := no_mutation_on_validation_failure pdNone 4
    { name := some "", action := some "in", timestamp := some (.num 5) }
    [dupE] stAfterAliceIn stW2dup
  exact ⟨h.1 (by decide), (h.2 (by decide)).1, (h.2 (by decide)).2⟩

/-- C10: a well-formed timestamp equal to the number 0 is rejected as if
missing because field presence is tested by truthiness, while any truthy
timestamp of a type other than number or string passes validation and is
stored as occurredAt unchanged, bypassing normalization. -/
theorem truthiness_timestamp_edge (pd : String → Option Int) (now : Int)
    (name action : String) (st : List Server.Entry)
    (hname : name ≠ "") (hact : action = "in" ∨ action = "out") :
    exceptIsOk (Server.fingerprintPost pd now
      { name := some name, action := some action,
        timestamp := some (.num 0) } st) = false ∧
    (∀ v : JSVal, truthyVal (some v) = true → (∀ n, v ≠ .num n) →
      v ≠ .nan → (∀ s, v ≠ .str s) →
      Server.fingerprintPost pd now
        { name := some name, action := some action, timestamp := some v } st
        = .ok
          (Server.trimHist
            ({ name := name, action := action, timestamp := v,
               receivedAt := now } :: st),
           { name := name, action := action, timestamp := v,
             receivedAt := now })) := by
  constructor
  · unfold Server.fingerprintPost
    simp [truthyVal, exceptIsOk]
  · intro v htr hnum hnan hstr
    have hv : Server.validData
        { name := some name, action := some action, timestamp := some v }
        = true := by
      unfold Server.validData Server.actionOk
      simp [truthyOptStr, hname, htr]
      rcases hact with h | h <;> simp [h]
    rw [fingerprintPost_valid _ _ _ _ hv]
    have hnorm : Server.normalizeTimestamp pd v = v := by
      cases v with
      | num n => exact absurd rfl (hnum n)
      | nan => exact absurd rfl hnan
      | str s => exact absurd rfl (hstr s)
      | bool b => rfl
      | obj => rfl
    simp [Server.mkEntry, hnorm]

/-- Witness for C10: timestamp 0 is rejected; an object timestamp and the
boolean true are accepted and stored unchanged. -/
theorem truthiness_timestamp_edge_witness :
    exceptIsOk (Server.fingerprintPost pdNone 3
      { name := some "Bob", action := some "in",
        timestamp := some (.num 0) } []) = false ∧
    Server.fingerprintPost pdNone 3
      { name := some "Bob", action := some "in", timestamp := some .obj } []
      = .ok ([{ name := "Bob", action := "in", timestamp := .obj,
                receivedAt := 3 }],
             { name := "Bob", action := "in", timestamp := .obj,
               receivedAt := 3 }) ∧
    Server.fingerprintPost pdNone 3
      { name := some "Bob", action := some "in",
        timestamp := some (.bool true) } []
      = .ok ([{ name := "Bob", action := "in", timestamp := .bool true,
                receivedAt := 3 }],
             { name := "Bob", action := "in", timestamp := .bool true,
               receivedAt := 3 }) := by
  refine ⟨(truthiness_timestamp_edge pdNone 3 "Bob" "in" [] (by decide)
    (Or.inl rfl)).1, ?_, ?_⟩
  · rw [(truthiness_timestamp_edge pdNone 3 "Bob" "in" [] (by decide)
      (Or.inl rfl)).2 .obj (by decide) (fun n h => JSVal.noConfusion h)
      (fun h => JSVal.noConfusion h) (fun s h => JSVal.noConfusion h)]
    rfl
  · rw [(truthiness_timestamp_edge pdNone 3 "Bob" "in" [] (by decide)
      (Or.inl rfl)).2 (.bool true) (by decide)
      (fun n h => JSVal.noConfusion h) (fun h => JSVal.noConfusion h)
      (fun s h => JSVal.noConfusion h)]
    rfl

/-- C2 counterexample: the ingestion input the claim covers (valid name,
recognized action, absent timestamp) is rejected by the server although the
claim says it succeeds with occurredAt equal to the current instant. -/
theorem absent_timestamp_rejected :
    exceptIsOk (Server.fingerprintPost pdNone 5
      { name := some "Bob", action := some "in" } []) = false := by decide

/-- C2 (amended): the server rejects an absent timestamp with a validation
error rather than defaulting to the current instant, and a truthy
unparseable timestamp string is accepted but stored as the NaN instant, not
as now; the fall-back-to-now policy holds in the website3 dashboard's
parseTimestamp, which returns the current instant both for absent input and
for a string that fails to parse. -/
theorem timestamp_fallback_corrected (pd : String → Option Int) (now : Int)
    (name action s : String) (st : List Server.Entry)
    (hname : name ≠ "") (hact : action = "in" ∨ action = "out") :
    exceptIsOk (Server.fingerprintPost pd now
      { name := some name, action := some action, timestamp := none } st)
      = false ∧
    (s ≠ "" → pd s = none →
      Server.fingerprintPost pd now
        { name := some name, action := some action,
          timestamp := some (.str s) } st
        = .ok
          (Server.trimHist
            ({ name := name, action := action, timestamp := .nan,
               receivedAt := now } :: st),
           { name := name, action := action, timestamp := .nan,
             receivedAt := now })) ∧
    W3.parseTimestamp pd now none = now ∧
    (pd s = none → W3.parseTimestamp pd now (some (.str s)) = now) := by
  refine ⟨?_, ?_, ?_, ?_⟩
  · unfold Server.fingerprintPost
    simp [truthyVal, exceptIsOk]
  · intro hs hpd
    have hv : Server.validData
        { name := some name, action := some action,
          timestamp := some (.str s) } = true := by
      unfold Server.validData Server.actionOk
      simp [truthyOptStr, truthyVal, hname, hs]
      rcases hact with h | h <;> simp [h]
    rw [fingerprintPost_valid _ _ _ _ hv]
    simp [Server.mkEntry, Server.normalizeTimestamp, hpd]
  · rfl
  · intro hpd
    unfold W3.parseTimestamp
    by_cases hs : s = ""
    · subst hs
      simp [truthyVal]
    · simp [truthyVal, hs, hpd]

/-- Witness for C2 (amended) at a concrete unparseable string. -/
theorem timestamp_fallback_corrected_witness :
    Server.fingerprintPost pdNone 8
      { name := some "Bob", action := some "out",
        timestamp := some (.str "not a date") } []
      = .ok ([{ name := "Bob", action := "out", timestamp := .nan,
                receivedAt := 8 }],
             { name := "Bob", action := "out", timestamp := .nan,
               receivedAt := 8 }) ∧
    W3.parseTimestamp pdNone 8 (some (.str "not a date")) = 8 := by
  have h := timestamp_fallback_corrected pdNone 8 "Bob" "out" "not a date" []
    (by decide) (Or.inr rfl)
  constructor
  · rw [h.2.1 (by decide) rfl]
    rfl
  · exact h.2.2.2 rfl

/-- C1 counterexample: with a retained entry of the same name, the same
action and an occurredAt identical to the candidate's normalized
occurredAt, the server ingestion still reports success and mutates the
retained history, so listRecent() is not left unchanged as the claim
states. -/
theorem server_ingest_appends_duplicate :
    exceptIsOk (Server.fingerprintPost pdNone 1 dupD [dupE]) = true ∧
    Server.listRecent (Server.ledgerAfterPost pdNone 1 dupD [dupE])
      ≠ Server.listRecent [dupE] := by decide

/-- C1 (amended): duplicate suppression lives only in the website2
dashboard's processEntry, which leaves the whole display state unchanged
(a silent no-op) when the retained display history holds a same-name
same-action entry within 1000 ms of the candidate's converted occurredAt;
the server-side ingestion performs no deduplication: every valid record is
appended and reported as success, even when such a duplicate is already
retained. -/
theorem dedup_in_display_layer_only (pd : String → Option Int) (now : Int)
    (d : RawData) (st2 : W2.State) (st : List Server.Entry)
    (hv : (truthyOptStr d.name && truthyOptStr d.action) = true) :
    (st2.activityHistory.any (W2.dupOf (W2.mkEntry pd now d)) = true →
      W2.processEntry pd now d st2 = st2) ∧
    (Server.validData d = true →
      Server.fingerprintPost pd now d st
        = .ok (Server.trimHist (Server.mkEntry pd now d :: st),
               Server.mkEntry pd now d)) := by
  constructor
  · intro hdup
    unfold W2.processEntry
    simp [hv, hdup]
  · intro h
    exact fingerprintPost_valid pd now d st h

/-- Witness for C1 (amended): a sign-in 500 ms from a retained one is
skipped by the website2 display layer, while the server appends an exact
duplicate and answers success. -/
theorem dedup_in_display_layer_only_witness :
    W2.processEntry pdNone 9 dW2dup stW2dup = stW2dup ∧
    Server.fingerprintPost pdNone 9 dupD [dupE]
      = .ok (Server.trimHist (Server.mkEntry pdNone 9 dupD :: [dupE]),
             Server.mkEntry pdNone 9 dupD) :=
  ⟨(dedup_in_display_layer_only pdNone 9 dW2dup stW2dup [] (by decide)).1
     (by decide),
   (dedup_in_display_layer_only pdNone 9 dupD stW2dup [dupE] (by decide)).2
     (by decide)⟩

/-- C7 counterexample: after a sign-in, the website3 display-side clear
leaves the active-session map non-empty, contradicting the claim that
activeSessions() is empty after clear(). -/
theorem clearActivity_keeps_sessions :
    (W3.clearActivity stAfterAliceIn).activeSessions
      = [("Alice", 1710000000123)] ∧
    (W3.clearActivity stAfterAliceIn).activeSessions ≠ [] := by decide

/-- C7 (amended): the server's DELETE /api/data empties the retained
history and returns the pre-clear history length, so listRecent() is empty
afterwards; the website3 dashboard's clearActivity empties only the
activity history and leaves the active-session map untouched; only the
website2 dashboard's variant also clears the session map. -/
theorem clear_semantics_corrected (st : List Server.Entry) (st3 : W3.State)
    (st2 : W2.State) :
    (Server.apiDataDelete st).1 = [] ∧
    (Server.apiDataDelete st).2 = (Server.listRecent st).length ∧
    (W3.clearActivity st3).activityHistory = [] ∧
    (W3.clearActivity st3).activeSessions = st3.activeSessions ∧
    (W2.clearActivity st2).activityHistory = [] ∧
    (W2.clearActivity st2).activeSessions = [] :=
  ⟨rfl, rfl, rfl, rfl, rfl, rfl⟩

/-- C6 counterexample: an "in" event dated ten days after the asOf day
start is counted by signInsToday although its occurredAt does not lie
within the asOf local calendar day required by the claim. -/
theorem stats_day_window_not_bounded_above :
    (Server.getStats 1700000000000 1700000000000 [futureE]).signInsToday = 1 ∧
    Server.claimSignInsToday 1700000000000 [futureE] = 0 := by decide

/-- C6 (amended): the /api/stats day and trailing-24h filters are bounded
below only: signInsToday and signOutsToday count retained events with the
matching action whose occurredAt is at or after the local-day start of
asOf (no upper bound, so events dated after that day still count), and
entriesLast24h counts events with occurredAt at or after asOf minus 24
hours (again unbounded above); consequently, for a day boundary d2, the
event one second before it and the event one second after it yield
signInsToday counts of 2 and 1 when asOf falls on the earlier and the
later day respectively. -/
theorem stats_lower_bound_only (todayStart now d2 : Int)
    (hist : List Server.Entry) :
    (Server.getStats todayStart now hist).signInsToday
      = hist.countP (fun e =>
          Server.tsGE e.timestamp todayStart && e.action == "in") ∧
    (Server.getStats todayStart now hist).signOutsToday
      = hist.countP (fun e =>
          Server.tsGE e.timestamp todayStart && e.action == "out") ∧
    (Server.getStats todayStart now hist).entriesLast24h
      = hist.countP (fun e =>
          Server.tsGE e.timestamp (now - 24 * 60 * 60 * 1000)) ∧
    (Server.getStats todayStart now hist).totalEntries = hist.length ∧
    (Server.getStats d2 d2 [lateE d2, earlyE d2]).signInsToday = 1 ∧
    (Server.getStats (d2 - 86400000) (d2 - 86400000)
      [lateE d2, earlyE d2]).signInsToday = 2 := by
  have e1 : Server.tsGE (JSVal.num (d2 + 1000)) d2 = true := by
    have hq : d2 ≤ d2 + 1000 := by omega
    simp [Server.tsGE, Server.toNum, hq]
  have e2 : Server.tsGE (JSVal.num (d2 - 1000)) d2 = false := by
    have hq : ¬ (d2 ≤ d2 - 1000) := by omega
    simp [Server.tsGE, Server.toNum, hq]
  have e3 : Server.tsGE (JSVal.num (d2 + 1000)) (d2 - 86400000) = true := by
    have hq : d2 - 86400000 ≤ d2 + 1000 := by omega
    simp [Server.tsGE, Server.toNum, hq]
  have e4 : Server.tsGE (JSVal.num (d2 - 1000)) (d2 - 86400000) = true := by
    have hq : d2 - 86400000 ≤ d2 - 1000 := by omega
    simp [Server.tsGE, Server.toNum, hq]
  refine ⟨?_, ?_, ?_, rfl, ?_, ?_⟩
  · rw [List.countP_eq_length_filter]
    unfold Server.getStats
    simp only [List.filter_filter]
    congr 1
    apply List.filter_congr
    intro e _
    rw [Bool.and_comm]
  · rw [List.countP_eq_length_filter]
    unfold Server.getStats
    simp only [List.filter_filter]
    congr 1
    apply List.filter_congr
    intro e _
    rw [Bool.and_comm]
  · rw [List.countP_eq_length_filter]
    rfl
  · simp [Server.getStats, earlyE, lateE, e1, e2]
  · simp [Server.getStats, earlyE, lateE, e3, e4]

/-- C4: bounded retention. After N valid, pairwise non-duplicate ingestions
into an initially empty store with N above the cap, the retained history
has length exactly the cap and consists of exactly the last cap ingested
events in reverse arrival order (newest first, older ones evicted): cap 100
in the server ledger and cap 50 in the website2 display cache. -/
theorem bounded_retention :
    (∀ (pd : String → Option Int) (now : Int) (ds : List RawData),
      (∀ d ∈ ds, Server.validData d = true) →
      ds.length > Server.MAX_HISTORY →
      Server.listRecent (Server.ingestAll pd now ds [])
        = ((ds.map (Server.mkEntry pd now)).reverse).take Server.MAX_HISTORY ∧
      (Server.ingestAll pd now ds []).length = Server.MAX_HISTORY) ∧
    (∀ (pd : String → Option Int) (now : Int) (ds : List RawData),
      (∀ d ∈ ds, (truthyOptStr d.name && truthyOptStr d.action) = true) →
      ds.Pairwise (fun d1 d2 =>
        W2.dupOf (W2.mkEntry pd now d2) (W2.mkEntry pd now d1) = false) →
      ds.length > 50 →
      (W2.processEntries pd now ds {}).activityHistory
        = ((ds.map (W2.mkEntry pd now)).reverse).take 50 ∧
      (W2.processEntries pd now ds {}).activityHistory.length = 50) := by
  constructor
  · intro pd now ds hv hlen
    have h := ingestAll_eq pd now ds [] hv (by simp)
    rw [List.append_nil] at h
    refine ⟨h, ?_⟩
    rw [h, List.length_take, List.length_reverse, List.length_map]
    omega
  · intro pd now ds hv hp hlen
    have hst : ({} : W2.State).activityHistory = [] := rfl
    have h := processEntries_hist pd now ds {} hv
      (fun e he => absurd (hst ▸ he) (List.not_mem_nil e)) hp
      (by rw [hst]; simp)
    rw [hst, List.append_nil] at h
    refine ⟨h, ?_⟩
    rw [h, List.length_take, List.length_reverse, List.length_map]
    omega

/-- Witness for C4: 101 valid sign-ins spaced 2000 ms apart overflow both
caps. -/
theorem bounded_retention_witness :
    (Server.ingestAll pdNone 0 manyRecords []).length = Server.MAX_HISTORY ∧
    (W2.processEntries pdNone 0 manyRecords {}).activityHistory.length
      = 50 :=
  ⟨(bounded_retention.1 pdNone 0 manyRecords (by decide) (by decide)).2,
   (bounded_retention.2 pdNone 0 manyRecords (by decide) (by decide)
     (by decide)).2⟩

/-- C8: in the website3 dashboard, a sign-in upserts the name's
active-session entry with the event's parsed timestamp as the session start
time, a sign-out removes the entry, and processing preserves the
at-most-one-session-per-name shape of the map (no duplicate keys). -/
theorem session_upsert_delete (pd : String → Option Int) (now : Int)
    (d : RawData) (st : W3.State)
    (h1 : truthyOptStr d.name = true) (h2 : truthyOptStr d.action = true) :
    (jsToLower (d.action.getD "") = "in" →
      (W3.processData pd now (some d) st).activeSessions
        = mapSet st.activeSessions (d.name.getD "")
            (W3.mkEntry pd now d).timestamp ∧
      mapGet (W3.processData pd now (some d) st).activeSessions
          (d.name.getD "")
        = some (W3.mkEntry pd now d).timestamp) ∧
    (jsToLower (d.action.getD "") = "out" →
      (W3.processData pd now (some d) st).activeSessions
        = mapDelete st.activeSessions (d.name.getD "") ∧
      mapGet (W3.processData pd now (some d) st).activeSessions
          (d.name.getD "") = none) ∧
    ((mapKeys st.activeSessions).Nodup →
      (mapKeys (W3.processData pd now (some d) st).activeSessions).Nodup) := by
  have hval : (truthyOptStr d.name && truthyOptStr d.action) = true := by
    simp [h1, h2]
  have hsess : (W3.processData pd now (some d) st).activeSessions
      = (if (W3.mkEntry pd now d).action == "in" then
          mapSet st.activeSessions (W3.mkEntry pd now d).name
            (W3.mkEntry pd now d).timestamp
        else if (W3.mkEntry pd now d).action == "out" then
          mapDelete st.activeSessions (W3.mkEntry pd now d).name
        else st.activeSessions) := by
    unfold W3.processData
    simp only [hval, if_true]
    split
    · rfl
    · split
      · rfl
      · rfl
  refine ⟨?_, ?_, ?_⟩
  · intro ha
    have hin : ((W3.mkEntry pd now d).action == "in") = true := by
      simp [W3.mkEntry, ha]
    have hs2 : (W3.processData pd now (some d) st).activeSessions
        = mapSet st.activeSessions (d.name.getD "")
            (W3.mkEntry pd now d).timestamp := by
      rw [hsess, if_pos hin]
      rfl
    exact ⟨hs2, by rw [hs2, mapGet_mapSet_self]⟩
  · intro ha
    have hni : ((W3.mkEntry pd now d).action == "in") = false := by
      simp [W3.mkEntry, ha]
    have hyo : ((W3.mkEntry pd now d).action == "out") = true := by
      simp [W3.mkEntry, ha]
    have hs2 : (W3.processData pd now (some d) st).activeSessions
        = mapDelete st.activeSessions (d.name.getD "") := by
      rw [hsess, if_neg (by simp [hni]), if_pos hyo]
      rfl
    exact ⟨hs2, by rw [hs2, mapGet_mapDelete_self]⟩
  · intro hnd
    rw [hsess]
    by_cases hin : ((W3.mkEntry pd now d).action == "in") = true
    · rw [if_pos hin]
      exact nodup_mapSet _ _ _ hnd
    · rw [if_neg hin]
      by_cases hout : ((W3.mkEntry pd now d).action == "out") = true
      · rw [if_pos hout]
        exact nodup_mapDelete _ _ hnd
      · rw [if_neg hout]
        exact hnd

/-- Witness for C8 at the scenario the claim names: Alice in at t1 then
Alice out removes the session; Alice in alone leaves the session with start
time t1. -/
theorem session_upsert_delete_witness :
    mapGet stAfterAliceIn.activeSessions "Alice" = some 1710000000123 ∧
    mapGet (W3.processData pdNone 0 (some aliceOut)
      stAfterAliceIn).activeSessions "Alice" = none := by
  constructor
  · have h := ((session_upsert_delete pdNone 0 aliceIn {} (by decide)
      (by decide)).1 (by decide)).2
    have ht : (W3.mkEntry pdNone 0 aliceIn).timestamp = 1710000000123 := by
      decide
    rw [ht] at h
    exact h
  · exact ((session_upsert_delete pdNone 0 aliceOut stAfterAliceIn
      (by decide) (by decide)).2.1 (by decide)).2
